import Mathlib

/-!
Shallow embedding of the live_scores_api normalization-and-caching engine
(Rust), together with proofs about the embedded definitions.

Conventions of the embedding:
* Rust `Result<T, Error>` becomes `Except Failure T`; a Rust panic (which
  aborts the whole unit of work) is the distinguished `Failure.panic`,
  while a returned `Err(e)` is `Failure.err e`.  Error messages built with
  `format!` carry no information relevant to any proof here and are elided.
* Rust strings are modelled as Lean `String`s (sequences of `Char`);
  Rust byte-index slicing `&s[a..b]` is modelled at the UTF-8 byte level:
  it panics when an index exceeds the byte length or falls inside a
  multi-byte character (not on a character boundary), exactly as Rust
  does.
* Machine integers (`u64`, `u8`, `u32`) are modelled as `Nat` with
  explicit range checks where the source checks them.
* `f64` arithmetic in the color module is modelled over `ℝ`, reading
  `powf(2.4)` as the real power function.
* Timestamps (`std::time::Instant`) are `Nat` nanosecond counts.
-/

namespace LS

/-! ## Core data model (common/types, generated from the protobuf schema,
and common/data.rs).  Only the fields and variants the claims touch are
populated by the functions below; the structures carry all fields the
source constructs. -/

inductive Status where
  | Pregame
  | Active
  | Intermission
  | End
  | Invalid
deriving DecidableEq, Repr

/-- Error enum of common/data.rs.  `format!` messages are elided; the
`InvalidSportType` payload is kept because the parser contract names it. -/
inductive Error where
  | FetchError
  | ParseError
  | InvalidSportType (s : String)
  | SerdeError
  | ChronoParseError
  | ParseIntError
deriving DecidableEq, Repr

/-- Outcome of a fallible Rust computation: either a returned `Err` value
or a panic (index out of bounds, unwrap on `None`, explicit `panic!`). -/
inductive Failure where
  | err (e : Error)
  | panic
deriving DecidableEq, Repr

inductive Level where
  | Professional
  | Collegiate
deriving DecidableEq, Repr

inductive SportType where
  | Hockey
  | Baseball
  | Football
  | Basketball
  | Golf
deriving DecidableEq, Repr

/-- common.types.Sport: a sport family crossed with a competition level. -/
structure Sport where
  sport_type : SportType
  level : Level
deriving DecidableEq, Repr

def new_sport (sport_type : SportType) (level : Level) : Sport :=
  ⟨sport_type, level⟩

/-- common.types.Color (r, g, b are u32 in the proto). -/
structure Color where
  r : Nat
  g : Nat
  b : Nat
deriving DecidableEq, Repr

/-- common.types.Team. -/
structure Team where
  id : Nat
  location : String
  name : String
  display_name : String
  abbreviation : String
  primary_color : Option Color
  secondary_color : Option Color
deriving DecidableEq, Repr

/-- Golf leaderboard entry (sport/golf.rs GolfPlayer). -/
structure GolfPlayer where
  name : String
  display_name : String
  score : String
  position : Nat
deriving DecidableEq, Repr

structure HockeyTeamData where
  powerplay : Bool
  num_skaters : Nat
deriving DecidableEq, Repr

structure HockeyData where
  home_team : Option HockeyTeamData
  away_team : Option HockeyTeamData
deriving DecidableEq, Repr

structure GolfData where
  event_name : String
  players : List GolfPlayer
deriving DecidableEq, Repr

/-- Sport-specific extra payload.  The baseball/football/basketball
variants of the proto union are never built by the functions embedded
here, so only their tags are carried. -/
inductive SportData where
  | HockeyData (d : HockeyData)
  | GolfData (d : GolfData)
  | BaseballData
  | BasketballData
  | FootballData
deriving DecidableEq, Repr

/-- common.types.Game.  `start_time` is the nanosecond timestamp. -/
structure Game where
  game_id : Nat
  sport : Option Sport
  home_team : Option Team
  away_team : Option Team
  home_team_score : Nat
  away_team_score : Nat
  period : Nat
  status : Status
  ordinal : String
  start_time : Int
  sport_data : Option SportData
deriving DecidableEq, Repr

/-! ## JSON values and the raw accessors of common/processors.rs.
`serde_json::Value` is the tree below; numbers are `Int` (the accessors
used by the claims only ever read unsigned integers, via `as_u64`). -/

inductive Json where
  | null
  | bool (b : Bool)
  | num (n : Int)
  | str (s : String)
  | arr (xs : List Json)
  | obj (fields : List (String × Json))

/-- `serde_json::Map` keyed lookup (`map.get(name)`). -/
def jsonGet (fields : List (String × Json)) (name : String) : Option Json :=
  (fields.find? (fun kv => kv.fst == name)).map (·.snd)

def Json.asObject : Json → Option (List (String × Json))
  | .obj fields => some fields
  | _ => none

def Json.asArray : Json → Option (List Json)
  | .arr xs => some xs
  | _ => none

def Json.asStr : Json → Option String
  | .str s => some s
  | _ => none

/-- `Value::as_u64`: an integer in u64 range. -/
def Json.asU64 : Json → Option Nat
  | .num n => if 0 ≤ n ∧ n < 2 ^ 64 then some n.toNat else none
  | _ => none

def Json.asBool : Json → Option Bool
  | .bool b => some b
  | _ => none

/-- `Value::get(name)` (object lookup that is `None` on non-objects). -/
def Json.getField : Json → String → Option Json
  | .obj fields, name => jsonGet fields name
  | _, _ => none

/-- `str::parse::<u64>()`: optional leading `+`, then one or more decimal
digits, value below 2^64. -/
def rustParseU64 (s : String) : Option Nat :=
  let ds := match s.data with
    | '+' :: rest => some rest
    | other => some other
  match ds with
  | some [] => none
  | some digits =>
    if digits.all (fun c => '0' ≤ c ∧ c ≤ '9') then
      let v := digits.foldl (fun acc c => acc * 10 + (c.toNat - 48)) 0
      if v < 2 ^ 64 then some v else none
    else none
  | none => none

def get_object (object : List (String × Json)) (name : String) :
    Except Failure (List (String × Json)) := do
  let value ← (jsonGet object name).elim (.error (.err .ParseError)) .ok
  value.asObject.elim (.error (.err .ParseError)) .ok

def get_array (object : List (String × Json)) (name : String) :
    Except Failure (List Json) := do
  let value ← (jsonGet object name).elim (.error (.err .ParseError)) .ok
  value.asArray.elim (.error (.err .ParseError)) .ok

def get_str (object : List (String × Json)) (name : String) :
    Except Failure String := do
  let value ← (jsonGet object name).elim (.error (.err .ParseError)) .ok
  value.asStr.elim (.error (.err .ParseError)) .ok

def get_u64 (object : List (String × Json)) (name : String) :
    Except Failure Nat := do
  let value ← (jsonGet object name).elim (.error (.err .ParseError)) .ok
  value.asU64.elim (.error (.err .ParseError)) .ok

def get_u64_str (object : List (String × Json)) (name : String) :
    Except Failure Nat := do
  let str ← get_str object name
  (rustParseU64 str).elim (.error (.err .ParseError)) .ok

def get_bool (object : List (String × Json)) (name : String) :
    Except Failure Bool := do
  let value ← (jsonGet object name).elim (.error (.err .ParseError)) .ok
  value.asBool.elim (.error (.err .ParseError)) .ok

def get_object_from_value (object : Json) (name : String) :
    Except Failure (List (String × Json)) := do
  let value ← (object.getField name).elim (.error (.err .ParseError)) .ok
  value.asObject.elim (.error (.err .ParseError)) .ok

def get_array_from_value (object : Json) (name : String) :
    Except Failure (List Json) := do
  let value ← (object.getField name).elim (.error (.err .ParseError)) .ok
  value.asArray.elim (.error (.err .ParseError)) .ok

def get_str_from_value (object : Json) (name : String) :
    Except Failure String := do
  let value ← (object.getField name).elim (.error (.err .ParseError)) .ok
  value.asStr.elim (.error (.err .ParseError)) .ok

def get_u64_from_value (object : Json) (name : String) :
    Except Failure Nat := do
  let value ← (object.getField name).elim (.error (.err .ParseError)) .ok
  value.asU64.elim (.error (.err .ParseError)) .ok

def get_u64_str_from_value (object : Json) (name : String) :
    Except Failure Nat := do
  let str ← get_str_from_value object name
  (rustParseU64 str).elim (.error (.err .ParseError)) .ok

/-- `Result::unwrap_or(default)`. -/
def unwrapOr {α : Type} (r : Except Failure α) (default : α) : α :=
  match r with
  | .ok a => a
  | .error _ => default

/-! ## common/data.rs: the standalone `SportType` enum (level folded into
the football/basketball variants) with its string round-trip. -/

namespace data

inductive Level where
  | Professional
  | College
deriving DecidableEq, Repr

inductive SportType where
  | Hockey
  | Baseball
  | Football (level : Level)
  | Basketball (level : Level)
  | Golf
deriving DecidableEq, Repr

/-- `impl FromStr for SportType` (common/data.rs). -/
def SportType.from_str (s : String) : Except Error SportType :=
  if s = "golf" then .ok .Golf
  else if s = "baseball" then .ok .Baseball
  else if s = "hockey" then .ok .Hockey
  else if s = "football" then .ok (.Football .Professional)
  else if s = "college-football" then .ok (.Football .College)
  else if s = "basketball" then .ok (.Basketball .Professional)
  else if s = "college-basketball" then .ok (.Basketball .College)
  else .error (.InvalidSportType s)

/-- `impl ToString for SportType` (common/data.rs). -/
def SportType.to_string : SportType → String
  | .Golf => "golf"
  | .Baseball => "baseball"
  | .Hockey => "hockey"
  | .Football .Professional => "football"
  | .Football .College => "college-football"
  | .Basketball .Professional => "basketball"
  | .Basketball .College => "college-basketball"

/-- `SportType::all()` — the canonical sport set (as a list). -/
def SportType.all : List SportType :=
  [.Golf, .Baseball, .Hockey, .Football .Professional, .Football .College,
   .Basketball .Professional, .Basketball .College]

/-- The fixed token set recognized by the parser. -/
def sportTokens : List String :=
  ["golf", "baseball", "hockey", "football", "college-football",
   "basketball", "college-basketball"]

end data

/-! ## common/fetch.rs: ESPN status-code mapping and the per-event ordinal
computation of `fetch_espn` (lines 90–97). -/

/-- `from_espn` (common/fetch.rs): map the provider status code; the
wildcard arm is `panic!("Unknown status {input}")`. -/
def from_espn (input : String) : Except Failure Status :=
  if input = "STATUS_IN_PROGRESS" then .ok .Active
  else if input = "STATUS_FINAL" ∨ input = "STATUS_PLAY_COMPLETE" then .ok .End
  else if input = "STATUS_SCHEDULED" then .ok .Pregame
  else if input = "STATUS_END_PERIOD" ∨ input = "STATUS_HALFTIME" ∨
      input = "STATUS_DELAYED" then .ok .Intermission
  else if input = "STATUS_POSTPONED" ∨ input = "STATUS_CANCELED" then .ok .Invalid
  else .error .panic

/-- The status codes `from_espn` recognizes. -/
def knownEspnCodes : List String :=
  ["STATUS_IN_PROGRESS", "STATUS_FINAL", "STATUS_PLAY_COMPLETE",
   "STATUS_SCHEDULED", "STATUS_END_PERIOD", "STATUS_HALFTIME",
   "STATUS_DELAYED", "STATUS_POSTPONED", "STATUS_CANCELED"]

/-- `Ordinal(period).to_string()` from the `ordinal` crate: decimal digits
followed by st/nd/rd/th, with 11/12/13 taking "th". -/
def ordinalToString (n : Nat) : String :=
  let suffix :=
    if n % 100 = 11 ∨ n % 100 = 12 ∨ n % 100 = 13 then "th"
    else if n % 10 = 1 then "st"
    else if n % 10 = 2 then "nd"
    else if n % 10 = 3 then "rd"
    else "th"
  Nat.repr n ++ suffix

/-- The ordinal computation of `fetch_espn` (common/fetch.rs lines 90–97):
start from the ordinal word of the period, append " INT" when the mapped
status is Intermission, and override with "HALFTIME" verbatim when the
raw code was STATUS_HALFTIME. -/
def fetch_espn_ordinal (period : Nat) (status : Status) (espn_status : String) :
    String :=
  let ordinal := ordinalToString period
  let ordinal := if status = .Intermission then ordinal ++ " INT" else ordinal
  if espn_status = "STATUS_HALFTIME" then "HALFTIME" else ordinal

/-! ## sport/hockey.rs: `fetch_hockey`, minus the HTTP request — the
function below receives the parsed linescore JSON object and the game
being extended, exactly as the body does after `serde_json::from_str`. -/

/-- `fetch_hockey` (sport/hockey.rs lines 16–71). -/
def fetch_hockey (game : Game) (json : List (String × Json)) :
    Except Failure Game := do
  let teams ← get_object json "teams"
  let away ← get_object teams "away"
  let home ← get_object teams "home"
  let away_score := unwrapOr (get_u64 away "goals") 0
  let home_score := unwrapOr (get_u64 home "goals") 0
  let game := { game with home_team_score := home_score,
                          away_team_score := away_score }
  let away_powerplay ← get_bool away "powerPlay"
  let home_powerplay ← get_bool home "powerPlay"
  let away_players := unwrapOr (get_u64 away "numSkaters") 5
  let home_players := unwrapOr (get_u64 home "numSkaters") 5
  let period ← get_u64 json "currentPeriod"
  let game := { game with period := period }
  let period_time := unwrapOr (get_str json "currentPeriodTimeRemaining") "20:00"
  let game :=
    if 1 ≤ period then
      { game with ordinal := unwrapOr (get_str json "currentPeriodOrdinal") "1st" }
    else game
  let (status, game) :=
    if period_time = "Final" then (Status.End, game)
    else if period_time = "END" then
      if 3 ≤ period ∧ away_score ≠ home_score then (Status.End, game)
      else (Status.Intermission, { game with ordinal := game.ordinal ++ " INT" })
    else if period_time = "20:00" ∧ 1 < period then
      (Status.Intermission, { game with ordinal := game.ordinal ++ " INT" })
    else if period_time = "20:00" ∧ 1 ≤ period then (Status.Active, game)
    else (Status.Pregame, game)
  let game := { game with status := status }
  let hockey_data : HockeyData :=
    { home_team := some { powerplay := home_powerplay,
                          num_skaters := home_players },
      away_team := some { powerplay := away_powerplay,
                          num_skaters := away_players } }
  let game := { game with sport_data := some (.HockeyData hockey_data) }
  .ok game

/-! ## common/color.rs.  The f64 computations are modelled over `ℝ`,
with `powf 2.4` as the real power; the branch margins of every concrete
color evaluated below are astronomically larger than f64 rounding error. -/

/-- Drop the characters covered by the first `n` UTF-8 bytes; `none`
when `n` overruns the string or falls inside a multi-byte character. -/
def dropBytes : List Char → Nat → Option (List Char)
  | cs, 0 => some cs
  | [], _ + 1 => none
  | c :: cs, n + 1 =>
    if c.utf8Size ≤ n + 1 then dropBytes cs (n + 1 - c.utf8Size) else none

/-- Take the characters covered by the first `n` UTF-8 bytes; `none`
when `n` overruns the string or falls inside a multi-byte character. -/
def takeBytes : List Char → Nat → Option (List Char)
  | _, 0 => some []
  | [], _ + 1 => none
  | c :: cs, n + 1 =>
    if c.utf8Size ≤ n + 1 then (takeBytes cs (n + 1 - c.utf8Size)).map (c :: ·)
    else none

/-- Rust `&s[a..b]`: byte-index slicing.  Panics when `a > b`, when an
index exceeds the byte length of the string, or when an index is not a
character boundary. -/
def rustSlice (s : String) (a b : Nat) : Except Failure String :=
  if a ≤ b then
    match dropBytes s.data a with
    | some rest =>
      match takeBytes rest (b - a) with
      | some sl => .ok ⟨sl⟩
      | none => .error .panic
    | none => .error .panic
  else .error .panic

def hexDigitVal (c : Char) : Option Nat :=
  if '0' ≤ c ∧ c ≤ '9' then some (c.toNat - 48)
  else if 'a' ≤ c ∧ c ≤ 'f' then some (c.toNat - 87)
  else if 'A' ≤ c ∧ c ≤ 'F' then some (c.toNat - 55)
  else none

/-- The digit characters of `s` after stripping an optional leading
sign (`+` only: `-` is rejected for unsigned types). -/
def stripSign (s : String) : List Char :=
  match s.data with
  | '+' :: rest => rest
  | other => other

/-- `u8::from_str_radix(s, 16)`: optional leading `+`, one or more hex
digits, value below 256. -/
def u8FromStrRadix16 (s : String) : Except Failure Nat :=
  match (stripSign s).mapM hexDigitVal with
  | some (d :: rest) =>
    if (d :: rest).foldl (fun acc d => acc * 16 + d) 0 < 256 then
      .ok ((d :: rest).foldl (fun acc d => acc * 16 + d) 0)
    else .error (.err .ParseIntError)
  | some [] => .error (.err .ParseIntError)
  | none => .error (.err .ParseIntError)

def new_color (rgb : Nat × Nat × Nat) : Color :=
  ⟨rgb.1, rgb.2.1, rgb.2.2⟩

def blackColor : Color := ⟨0, 0, 0⟩

def whiteColor : Color := ⟨255, 255, 255⟩

/-- `get_rgb_from_hex` (common/color.rs): byte-slice the three channel
pairs (panicking on strings shorter than six characters) and parse each
as base-16. -/
def get_rgb_from_hex (color : String) : Except Failure Color := do
  let red ← u8FromStrRadix16 (← rustSlice color 0 2)
  let green ← u8FromStrRadix16 (← rustSlice color 2 4)
  let blue ← u8FromStrRadix16 (← rustSlice color 4 6)
  .ok (new_color (red, green, blue))

/-- The sRGB gamma linearization step of `get_luminance`. -/
noncomputable def newValue (c : ℝ) : ℝ :=
  if c ≤ 0.03928 then c / 12.92
  else ((c + 0.055) / 1.055) ^ (2.4 : ℝ)

/-- `get_luminance` (common/color.rs).  The `as u8` casts of the u32
channels truncate mod 256. -/
noncomputable def get_luminance (color : Color) : ℝ :=
  let red : ℝ := (color.r % 256 : Nat)
  let green : ℝ := (color.g % 256 : Nat)
  let blue : ℝ := (color.b % 256 : Nat)
  0.2126 * newValue (red / 255) + 0.7152 * newValue (green / 255) +
    0.0722 * newValue (blue / 255)

/-- `get_contrast` (common/color.rs). -/
noncomputable def get_contrast (primary secondary : Color) : ℝ :=
  let primary_luminance := get_luminance primary
  let secondary_luminance := get_luminance secondary
  (max primary_luminance secondary_luminance + 0.05) /
    (min primary_luminance secondary_luminance + 0.05)

/-- `get_secondary_for_primary` (common/color.rs): keep the candidate when
its contrast against the primary exceeds 3.5, otherwise pick whichever of
pure white and pure black contrasts more against the primary. -/
noncomputable def get_secondary_for_primary (primary secondary_candidate : String) :
    Except Failure Color := do
  let primaryC ← get_rgb_from_hex primary
  let secondary_color ← get_rgb_from_hex secondary_candidate
  let contrast := get_contrast primaryC secondary_color
  let white_contrast := get_contrast primaryC whiteColor
  let black_contrast := get_contrast primaryC blackColor
  if contrast > 3.5 then .ok secondary_color
  else if white_contrast > black_contrast then .ok whiteColor
  else .ok blackColor

/-! ## common/team.rs: display-name abbreviation and team synthesis. -/

/-- `str::split(' ')` (keeps empty pieces). -/
def rustSplit (s : String) (sep : Char) : List String :=
  s.splitOn ⟨[sep]⟩

/-- `get_display_name` (common/team.rs). -/
def get_display_name (raw : String) : String :=
  if 11 < raw.data.length then
    let words := rustSplit raw ' '
    let words := match words.reverse with
      | last :: front => ((if last = "State" then "St" else last) :: front).reverse
      | [] => words
    let words := match words with
      | first :: rest =>
        (if first = "North" then "N"
         else if first = "South" then "S"
         else if first = "West" then "W"
         else if first = "East" then "E"
         else if first = "Central" then "C"
         else first) :: rest
      | [] => words
    String.intercalate " " words
  else raw

/-- `create_team` (common/team.rs): synthesize a `Team` from provider
JSON for an id missing from the static table.  Note that the secondary
candidate handed to the color resolver is the same `"color"` string that
became the primary (the `unwrap_or` default is unreachable because the
preceding line already required the field). -/
noncomputable def create_team (competitor : Json) : Except Failure Team := do
  let team ← get_object_from_value competitor "team"
  let int_id := match get_u64 team "id" with
    | .ok id => Except.ok id
    | .error _ => get_u64_str team "id"
  let id ← int_id
  let location ← get_str team "location"
  let name ← get_str team "name"
  let abbreviation ← get_str team "abbreviation"
  let display_name := get_display_name name
  let primary_color ← get_str team "color"
  let secondary_candidate := unwrapOr (get_str team "color") "000000"
  let secondary_color ← get_secondary_for_primary primary_color secondary_candidate
  let primary ← get_rgb_from_hex primary_color
  .ok { id := id, location := location, name := name,
        display_name := display_name, abbreviation := abbreviation,
        primary_color := some primary,
        secondary_color := some secondary_color }

/-! ## A small backtracking regular-expression engine, modelling the
`regex` crate as used by sport/golf.rs: greedy leftmost-first matching
with numbered capture groups (a later iteration of a repeated group
overwrites its capture, as in the crate).  Fuel bounds the recursion
depth; every repeated subexpression of the one pattern used requires at
least one character per iteration, so the generous fuel below never runs
out on a successful search. -/

inductive RE where
  | cls (neg : Bool) (ranges : List (Char × Char))
  | dot
  | seq (a b : RE)
  | star (a : RE)
  | plus (a : RE)
  | group (idx : Nat) (a : RE)

def inRanges (ranges : List (Char × Char)) (c : Char) : Bool :=
  ranges.any (fun r => r.1 ≤ c ∧ c ≤ r.2)

def inClass (neg : Bool) (ranges : List (Char × Char)) (c : Char) : Bool :=
  if neg then !(inRanges ranges c) else inRanges ranges c

/-- Backtracking matcher in continuation style.  The continuation gets
the unconsumed suffix and the captures; `star` greedily tries another
(character-consuming) iteration before falling back to the continuation. -/
def reMatch {α : Type} : Nat → RE → List Char → (Nat → Option String) →
    (List Char → (Nat → Option String) → Option α) → Option α
  | 0, _, _, _, _ => none
  | _ + 1, .cls neg ranges, s, caps, k =>
    match s with
    | [] => none
    | c :: rest => if inClass neg ranges c then k rest caps else none
  | _ + 1, .dot, s, caps, k =>
    match s with
    | [] => none
    | c :: rest => if c = '\n' then none else k rest caps
  | fuel + 1, .seq a b, s, caps, k =>
    reMatch fuel a s caps (fun s2 caps2 => reMatch fuel b s2 caps2 k)
  | fuel + 1, .star a, s, caps, k =>
    (reMatch fuel a s caps (fun s2 caps2 =>
      if s2.length < s.length then reMatch fuel (.star a) s2 caps2 k
      else none)) <|> k s caps
  | fuel + 1, .plus a, s, caps, k =>
    reMatch fuel a s caps (fun s2 caps2 => reMatch fuel (.star a) s2 caps2 k)
  | fuel + 1, .group i a, s, caps, k =>
    reMatch fuel a s caps (fun s2 caps2 =>
      k s2 (fun j => if j = i then some ⟨s.take (s.length - s2.length)⟩
                     else caps2 j))

def reFuel (s : List Char) : Nat := 32 * (s.length + 2)

/-- Leftmost match with captures: try successive start offsets; at the
first offset that matches, return the whole matched text (capture 0) and
the group captures.  This is `Regex::captures_iter(line).next()`. -/
def reFind (re : RE) : List Char → Option (String × (Nat → Option String))
  | [] =>
    reMatch (reFuel []) re [] (fun _ => none)
      (fun _ caps => some ("", caps))
  | s@(_ :: t) =>
    match reMatch (reFuel s) re s (fun _ => none)
      (fun rest caps =>
        some (String.mk (s.take (s.length - rest.length)), caps)) with
    | some r => some r
    | none => reFind re t

/-- The fixed pattern of `from_raw_data`:
`.*\s([a-zA-z ]+)/([a-zA-z ]+)\s*([^\s]+)+` — note the source really
writes `A-z` in the name classes. -/
def wsRanges : List (Char × Char) :=
  [('\t', '\r'), (' ', ' '), (Char.ofNat 0x85, Char.ofNat 0x85),
   (Char.ofNat 0xA0, Char.ofNat 0xA0), (Char.ofNat 0x1680, Char.ofNat 0x1680),
   (Char.ofNat 0x2000, Char.ofNat 0x200A),
   (Char.ofNat 0x2028, Char.ofNat 0x2029),
   (Char.ofNat 0x202F, Char.ofNat 0x202F),
   (Char.ofNat 0x205F, Char.ofNat 0x205F),
   (Char.ofNat 0x3000, Char.ofNat 0x3000)]

def nameRanges : List (Char × Char) := [('a', 'z'), ('A', 'z'), (' ', ' ')]

def rawDataRe : RE :=
  .seq (.star .dot)
    (.seq (.cls false wsRanges)
      (.seq (.group 1 (.plus (.cls false nameRanges)))
        (.seq (.cls false [('/', '/')])
          (.seq (.group 2 (.plus (.cls false nameRanges)))
            (.seq (.star (.cls false wsRanges))
              (.plus (.group 3 (.plus (.cls true wsRanges)))))))))

/-! ## sport/golf.rs: leaderboard extraction. -/

/-- `str::to_uppercase()` (ASCII mapping; the inputs of interest here are
ASCII). -/
def rustToUppercase (s : String) : String := ⟨s.data.map Char.toUpper⟩

/-- `str::contains(pat)`. -/
def rustContains (s pat : String) : Bool := decide (List.IsInfix pat.data s.data)

/-- `from_raw_data` (sport/golf.rs): run the regex on one line; on a
match, build the player from `cap[0]` (the whole match) and `cap[1]` (the
first name group), taking `cap[2]` (the second name group) as the score,
slicing the first five characters of each name (a panic when shorter). -/
def from_raw_data (line : String) (position : Nat) :
    Except Failure (Option GolfPlayer) :=
  match reFind rawDataRe line.data with
  | some (whole, caps) =>
    match caps 1, caps 2 with
    | some player_b, some score => do
      let pa ← rustSlice whole 0 5
      let pb ← rustSlice player_b 0 5
      let display_name := pa ++ "/" ++ pb
      .ok (some { name := display_name, display_name := display_name,
                  score := score, position := position })
    | _, _ => .error .panic
  | none => .ok none

/-- `from_teamstroke` (sport/golf.rs): score from the first statistic
(default "E"), display name from the roster players, each last name
byte-sliced to its first five characters (`&name[0..5]`, a panic when the
name is shorter), joined by "/" and uppercased. -/
def from_teamstroke (competitor : Json) : Except Failure GolfPlayer := do
  let stats ← get_array_from_value competitor "statistics"
  let score ← match stats.head? with
    | some latest_stat => get_str_from_value latest_stat "displayValue"
    | none => Except.ok "E"
  let roster ← get_array_from_value competitor "roster"
  let names ← roster.mapM (fun player => do
    let athlete ← get_object_from_value player "athlete"
    let last_name ← get_str athlete "lastName"
    rustSlice last_name 0 5)
  let display_name := rustToUppercase (String.intercalate "/" names)
  let status ← get_object_from_value competitor "status"
  let position ← get_u64_str (← get_object status "position") "id"
  .ok { name := display_name, display_name := display_name,
        score := score, position := position }

def invalidNames : List String :=
  ["JR.", "JR", "SR.", "SR", "II", "III", "IV", "V", "VI"]

/-- `from_competitor` (sport/golf.rs): the athlete display name
uppercased; the surname is the last space-separated token that is not a
name suffix (a panic when every token is a suffix). -/
def from_competitor (competitor : Json) : Except Failure GolfPlayer := do
  let stats ← get_array_from_value competitor "statistics"
  let score ← match stats.head? with
    | some latest_stat => get_str_from_value latest_stat "displayValue"
    | none => Except.ok "E"
  let athlete ← get_object_from_value competitor "athlete"
  let full_name := rustToUppercase (← get_str athlete "displayName")
  let last_name ←
    match (rustSplit full_name ' ').reverse.find?
        (fun s => !(invalidNames.contains s)) with
    | some s => Except.ok s
    | none => Except.error .panic
  let status ← get_object_from_value competitor "status"
  let position ← get_u64_str (← get_object status "position") "id"
  .ok { name := full_name, display_name := last_name,
        score := score, position := position }

/-- The lazy `filter_map(from_raw_data).take(5).collect()` over the
enumerated lines: lines after the fifth collected player are never
pulled, so a panic hiding there never fires. -/
def rawTop5 : Nat → List (Nat × String) → Except Failure (List GolfPlayer)
  | _, [] => .ok []
  | 0, _ :: _ => .ok []
  | n + 1, (position, line) :: rest => do
    match ← from_raw_data line position with
    | none => rawTop5 (n + 1) rest
    | some p => do
      let tail ← rawTop5 n rest
      .ok (p :: tail)

/-- `candidates.sort_by(|a, b| a.position.cmp(&b.position))` — a stable
sort by the numeric position. -/
def sortByPosition (candidates : List GolfPlayer) : List GolfPlayer :=
  candidates.mergeSort (fun a b => a.position ≤ b.position)

/-- The leaderboard block of `process_golf` (sport/golf.rs lines
181–212), entered with the event status as already reclassified by the
tee-time checks: branch on the scoring system; for "Teamstroke" prefer
the `rawData` blob (promoting Active to End when it contains "COMPLETE"),
else fall back to the structured roster; otherwise extract
per-competitor.  Returns the possibly promoted status and the top-5
list. -/
def process_golf_top_5 (competition : Json) (status : Status) :
    Except Failure (Status × List GolfPlayer) := do
  let scoring_system ← get_object_from_value competition "scoringSystem"
  let scoring_system ← get_str scoring_system "name"
  if scoring_system = "Teamstroke" then
    match get_str_from_value competition "rawData" with
    | .ok raw_data =>
      let status :=
        if status = .Active ∧ rustContains raw_data "COMPLETE" then .End
        else status
      let top_5 ← rawTop5 5 ((raw_data.splitOn "\n").enum)
      .ok (status, top_5)
    | .error _ => do
      let competitors ← get_array_from_value competition "competitors"
      let candidates ← competitors.mapM from_teamstroke
      .ok (status, (sortByPosition candidates).take 5)
  else do
    let competitors ← get_array_from_value competition "competitors"
    let candidates ← competitors.mapM from_competitor
    .ok (status, (sortByPosition candidates).take 5)

/-! ## server.rs: the TTL cache in front of the fetchers
(`get_scores_for_sports`).  The cache map is a function from `Sport`;
`Instant` timestamps are nanosecond counts; the pure loops take one
clock reading per lock acquisition (`now` under the read lock, `now2`
under the write lock).  `fetch_sport` is an oracle parameter mapping a
sport to `some games` (success) or `none` (error), standing for the
network.  An HTTP error reply is `StatusCode.internalServerError`. -/

inductive StatusCode where
  | internalServerError
deriving DecidableEq, Repr

/-- A cache slot: `(Instant, Option<Vec<Game>>)`; `none` remembers a
failed fetch. -/
structure CacheEntry where
  last_updated : Nat
  snapshot : Option (List Game)
deriving DecidableEq, Repr

def Cache : Type := Sport → Option CacheEntry

def ResultsMap : Type := Sport → Option (List Game)

def emptyResults : ResultsMap := fun _ => none

def resultsInsert (m : ResultsMap) (s : Sport) (games : List Game) : ResultsMap :=
  fun t => if t = s then some games else m t

def cacheInsert (c : Cache) (s : Sport) (e : CacheEntry) : Cache :=
  fun t => if t = s then some e else c t

def durationFromSecs (s : Nat) : Nat := s * 1000000000

/-- The first, read-locked loop of `get_scores_for_sports` (server.rs
lines 102–119): serve every requested sport whose entry is younger than
60 seconds from its snapshot, fail the whole call if such a fresh entry
is a failure marker, and queue every other requested sport for
refetching.  Returns the served results and the refetch queue. -/
def cacheReadPhase (cache : Cache) (now : Nat) :
    List Sport → Except StatusCode (ResultsMap × List Sport)
  | [] => .ok (emptyResults, [])
  | sport :: rest =>
    match cache sport with
    | some entry =>
      if now - entry.last_updated < durationFromSecs 60 then
        match entry.snapshot with
        | some result =>
          match cacheReadPhase cache now rest with
          | .ok (results, futures) =>
            .ok (resultsInsert results sport result, futures)
          | .error e => .error e
        | none => .error .internalServerError
      else
        match cacheReadPhase cache now rest with
        | .ok (results, futures) => .ok (results, sport :: futures)
        | .error e => .error e
    | none =>
      match cacheReadPhase cache now rest with
      | .ok (results, futures) => .ok (results, sport :: futures)
      | .error e => .error e

/-- The second, write-locked loop (server.rs lines 121–136): walk the
joined fetch results in order; a success is stored in the cache as
`(now2, some games)` and merged into the results, a failure is stored as
`(now2, none)` and raises the deferred error flag. -/
def cacheWritePhase (fetchSport : Sport → Option (List Game)) (now2 : Nat) :
    List Sport → ResultsMap → Cache → Bool → ResultsMap × Cache × Bool
  | [], results, cache, maybe_err => (results, cache, maybe_err)
  | sport :: rest, results, cache, maybe_err =>
    match fetchSport sport with
    | some result =>
      cacheWritePhase fetchSport now2 rest
        (resultsInsert results sport result)
        (cacheInsert cache sport ⟨now2, some result⟩) maybe_err
    | none =>
      cacheWritePhase fetchSport now2 rest results
        (cacheInsert cache sport ⟨now2, none⟩) true

/-- `get_scores_for_sports` (server.rs lines 95–141): read phase, then
concurrent refetch of the queued sports, then write phase; the deferred
error flag turns the response into an error even though the cache keeps
the successful writes.  Returns the response and the final cache. -/
def get_scores_for_sports (cache : Cache) (now now2 : Nat)
    (fetchSport : Sport → Option (List Game)) (sports : List Sport) :
    Except StatusCode ResultsMap × Cache :=
  match cacheReadPhase cache now sports with
  | .error e => (.error e, cache)
  | .ok (results, futures) =>
    match cacheWritePhase fetchSport now2 futures results cache false with
    | (results, cache, maybe_err) =>
      (if maybe_err then .error .internalServerError else .ok results, cache)

/-! ## Reference definitions written from the specification text, used to
compare the embedded source functions against the spec (refinement
claims). -/

/-- The hockey status rules exactly as the specification lists them, as a
function of the literal "time remaining" string (already defaulted to
"20:00"), the period and the two scores. -/
def hockeyStatusSpec (time : String) (period away home : Nat) : Status :=
  if time = "Final" then .End
  else if time = "END" then
    if 3 ≤ period ∧ away ≠ home then .End else .Intermission
  else if time = "20:00" ∧ 1 < period then .Intermission
  else if time = "20:00" ∧ 1 ≤ period then .Active
  else .Pregame

/-- The stale-or-missing condition under which the cache refetches a
sport. -/
def needsRefetch (cache : Cache) (now : Nat) (s : Sport) : Prop :=
  cache s = none ∨
    ∃ e, cache s = some e ∧ ¬(now - e.last_updated < durationFromSecs 60)

/-! ## Concrete inputs used by the witnesses below. -/

/-- A blank game, as `fetch_statsapi` builds it before the linescore
fetch corrects it. -/
def wGame : Game :=
  { game_id := 2022020001, sport := some ⟨.Hockey, .Professional⟩,
    home_team := none, away_team := none, home_team_score := 0,
    away_team_score := 0, period := 0, status := .Active, ordinal := "",
    start_time := 0, sport_data := none }

/-- A linescore body: period 3 just ended with the score tied. -/
def wLinescore : List (String × Json) :=
  [("teams", .obj
      [("away", .obj [("goals", .num 2), ("powerPlay", .bool false)]),
       ("home", .obj [("goals", .num 2), ("powerPlay", .bool false)])]),
   ("currentPeriod", .num 3),
   ("currentPeriodTimeRemaining", .str "END"),
   ("currentPeriodOrdinal", .str "3rd")]

/-- The game `fetch_hockey` produces from `wGame` and `wLinescore`. -/
def wResultGame : Game :=
  { game_id := 2022020001, sport := some ⟨.Hockey, .Professional⟩,
    home_team := none, away_team := none, home_team_score := 2,
    away_team_score := 2, period := 3, status := .Intermission,
    ordinal := "3rd INT", start_time := 0,
    sport_data := some (.HockeyData
      { home_team := some { powerplay := false, num_skaters := 5 },
        away_team := some { powerplay := false, num_skaters := 5 } }) }

/-- A golf competition in an individual (non-Teamstroke) scoring system
with no competitors. -/
def wGolfCompetition : Json :=
  .obj [("scoringSystem", .obj [("name", .str "Stroke")]),
        ("competitors", .arr [])]

/-- A Teamstroke competitor whose roster contains a golfer with a
two-letter last name. -/
def wShortNameCompetitor : Json :=
  .obj [("statistics", .arr []),
        ("roster", .arr
          [.obj [("athlete", .obj [("lastName", .str "Im")])]]),
        ("status", .obj [("position", .obj [("id", .str "1")])])]

/-- A provider competitor payload for an unknown team id, with a black
primary color. -/
def wCompetitor : Json :=
  .obj [("team", .obj
    [("id", .num 999), ("location", .str "Testville"),
     ("name", .str "Testers"), ("abbreviation", .str "TST"),
     ("color", .str "000000")])]

/-- The team `create_team` synthesizes from `wCompetitor`. -/
def wTeam : Team :=
  { id := 999, location := "Testville", name := "Testers",
    display_name := "Testers", abbreviation := "TST",
    primary_color := some blackColor, secondary_color := some whiteColor }

def wSport : Sport := ⟨.Hockey, .Professional⟩

def wCache : Cache := fun _ => none

/-- A cache holding a fresh successful (empty) snapshot for every
sport. -/
def wFreshCache : Cache := fun _ => some ⟨0, some []⟩

def wFetch : Sport → Option (List Game) := fun _ => some []

/-! ## Helper lemmas shared by the proofs. -/

theorem exceptBind_ok {α β : Type} {x : Except Failure α}
    {f : α → Except Failure β} {b : β} (h : x >>= f = .ok b) :
    ∃ a, x = .ok a ∧ f a = .ok b := by
  cases x with
  | error e => simp [Bind.bind, Except.bind] at h
  | ok a => exact ⟨a, rfl, by simpa [Bind.bind, Except.bind] using h⟩

theorem ok_of_ok_eq {α : Type} {a b : α} (h : (Except.ok a : Except Failure α) = .ok b) :
    a = b := by
  cases h; rfl

/-! ## C6: sport token round-trip. -/

/-- C6. Converting any sport of the canonical set to its string token and
parsing the token back is the identity, and parsing any string outside
the fixed token set fails with `InvalidSportType`. -/
theorem sport_type_roundtrip :
    (∀ st : data.SportType, st ∈ data.SportType.all ∧
      data.SportType.from_str st.to_string = .ok st) ∧
    (∀ s : String, s ∉ data.sportTokens →
      data.SportType.from_str s = .error (.InvalidSportType s)) := by
  constructor
  · intro st
    constructor
    · rcases st with _ | _ | l | l | _ <;> try cases l
      all_goals simp [data.SportType.all]
    · rcases st with _ | _ | l | l | _ <;> try cases l
      all_goals rfl
  · intro s hs
    simp only [data.sportTokens, List.mem_cons, List.not_mem_nil, or_false,
      not_or] at hs
    obtain ⟨h1, h2, h3, h4, h5, h6, h7⟩ := hs
    simp [data.SportType.from_str, h1, h2, h3, h4, h5, h6, h7]

/-- Witness for C6 at the concrete unknown token "foo". -/
theorem sport_type_roundtrip_witness :
    data.SportType.from_str "foo" = .error (.InvalidSportType "foo") :=
  sport_type_roundtrip.2 "foo" (by decide)

/-! ## C2: ESPN status-code mapping. -/

/-- C2. The provider status mapping sends each known code to its
canonical status, any unknown code to a panic (never a defaulted
status), and the ordinal computation yields exactly "HALFTIME" whenever
the raw code is STATUS_HALFTIME. -/
theorem espn_status_mapping :
    from_espn "STATUS_IN_PROGRESS" = .ok .Active ∧
    from_espn "STATUS_FINAL" = .ok .End ∧
    from_espn "STATUS_PLAY_COMPLETE" = .ok .End ∧
    from_espn "STATUS_SCHEDULED" = .ok .Pregame ∧
    from_espn "STATUS_END_PERIOD" = .ok .Intermission ∧
    from_espn "STATUS_HALFTIME" = .ok .Intermission ∧
    from_espn "STATUS_DELAYED" = .ok .Intermission ∧
    from_espn "STATUS_POSTPONED" = .ok .Invalid ∧
    from_espn "STATUS_CANCELED" = .ok .Invalid ∧
    (∀ s : String, s ∉ knownEspnCodes → from_espn s = .error .panic) ∧
    (∀ (period : Nat) (status : Status),
      fetch_espn_ordinal period status "STATUS_HALFTIME" = "HALFTIME") := by
  refine ⟨rfl, rfl, rfl, rfl, rfl, rfl, rfl, rfl, rfl, ?_, ?_⟩
  · intro s hs
    simp only [knownEspnCodes, List.mem_cons, List.not_mem_nil, or_false,
      not_or] at hs
    obtain ⟨h1, h2, h3, h4, h5, h6, h7, h8, h9⟩ := hs
    simp [from_espn, h1, h2, h3, h4, h5, h6, h7, h8, h9]
  · intro period status
    simp [fetch_espn_ordinal]

/-- Witness for C2 at the concrete unknown code "STATUS_FOO". -/
theorem espn_status_mapping_witness :
    from_espn "STATUS_FOO" = .error .panic :=
  espn_status_mapping.2.2.2.2.2.2.2.2.2.1 "STATUS_FOO" (by decide)

/-! ## C1: the hockey linescore status machine. -/

/-- C1. For every linescore body the hockey updater accepts, the
resulting status is exactly the spec rule list applied to the
"time remaining" string (defaulted to "20:00" when absent), the current
period and the scores; and every Intermission outcome carries an ordinal
ending in " INT". -/
theorem hockey_status_machine
    (game : Game) (json : List (String × Json)) (g2 : Game) (period : Nat)
    (hper : get_u64 json "currentPeriod" = .ok period)
    (h : fetch_hockey game json = .ok g2) :
    g2.status = hockeyStatusSpec
        (unwrapOr (get_str json "currentPeriodTimeRemaining") "20:00")
        period g2.away_team_score g2.home_team_score ∧
    (g2.status = .Intermission → ∃ base, g2.ordinal = base ++ " INT") := by
  unfold fetch_hockey at h
  obtain ⟨teams, hteams, h2⟩ := exceptBind_ok h
  obtain ⟨away, haway, h3⟩ := exceptBind_ok h2
  obtain ⟨home, hhome, h4⟩ := exceptBind_ok h3
  obtain ⟨apw, hapw, h5⟩ := exceptBind_ok h4
  obtain ⟨hpw, hhpw, h6⟩ := exceptBind_ok h5
  obtain ⟨per, hper2, h7⟩ := exceptBind_ok h6
  clear h h2 h3 h4 h5 h6
  rw [hper] at hper2
  injection hper2 with hpp
  subst hpp
  dsimp only at h7
  by_cases hF : unwrapOr (get_str json "currentPeriodTimeRemaining") "20:00" = "Final"
  · simp only [if_pos hF] at h7
    replace h7 := ok_of_ok_eq h7
    subst h7
    refine ⟨by simp [hockeyStatusSpec, apply_ite Game.away_team_score, apply_ite Game.home_team_score, hF], by intro hcon; cases hcon⟩
  by_cases hE : unwrapOr (get_str json "currentPeriodTimeRemaining") "20:00" = "END"
  · by_cases hsc : 3 ≤ period ∧
        unwrapOr (get_u64 away "goals") 0 ≠ unwrapOr (get_u64 home "goals") 0
    · simp only [if_neg hF, if_pos hE, if_pos hsc] at h7
      replace h7 := ok_of_ok_eq h7
      subst h7
      refine ⟨by simp [hockeyStatusSpec, apply_ite Game.away_team_score, apply_ite Game.home_team_score, hF, hE, hsc], by intro hcon; cases hcon⟩
    · simp only [if_neg hF, if_pos hE, if_neg hsc] at h7
      replace h7 := ok_of_ok_eq h7
      subst h7
      exact ⟨by simp [hockeyStatusSpec, apply_ite Game.away_team_score, apply_ite Game.home_team_score, hF, hE, hsc], fun _ => ⟨_, rfl⟩⟩
  by_cases h20a : unwrapOr (get_str json "currentPeriodTimeRemaining") "20:00" = "20:00" ∧
      1 < period
  · simp only [if_neg hF, if_neg hE, if_pos h20a] at h7
    replace h7 := ok_of_ok_eq h7
    subst h7
    exact ⟨by simp [hockeyStatusSpec, apply_ite Game.away_team_score, apply_ite Game.home_team_score, hF, hE, h20a], fun _ => ⟨_, rfl⟩⟩
  by_cases h20b : unwrapOr (get_str json "currentPeriodTimeRemaining") "20:00" = "20:00" ∧
      1 ≤ period
  · simp only [if_neg hF, if_neg hE, if_neg h20a, if_pos h20b] at h7
    replace h7 := ok_of_ok_eq h7
    subst h7
    have hnp : ¬1 < period := fun hlt => h20a ⟨h20b.1, hlt⟩
    refine ⟨by simp [hockeyStatusSpec, apply_ite Game.away_team_score, apply_ite Game.home_team_score, hF, hE, h20a, h20b, hnp], by intro hcon; cases hcon⟩
  · simp only [if_neg hF, if_neg hE, if_neg h20a, if_neg h20b] at h7
    replace h7 := ok_of_ok_eq h7
    subst h7
    refine ⟨by simp [hockeyStatusSpec, apply_ite Game.away_team_score, apply_ite Game.home_team_score, hF, hE, h20a, h20b], by intro hcon; cases hcon⟩

/-- Witness for C1: a tied game whose third period just ended is an
intermission. -/
theorem hockey_status_machine_witness :
    wResultGame.status = hockeyStatusSpec
        (unwrapOr (get_str wLinescore "currentPeriodTimeRemaining") "20:00")
        3 wResultGame.away_team_score wResultGame.home_team_score ∧
    (wResultGame.status = .Intermission →
      ∃ base, wResultGame.ordinal = base ++ " INT") :=
  hockey_status_machine wGame wLinescore wResultGame 3 rfl rfl

/-! ## C8: totality of the hex color parsing. -/

/-- Counterexample to C8 as stated: on the malformed (shorter than six
characters) input "abc" the resolver panics on the byte-range slice
instead of returning a parse error. -/
theorem get_secondary_short_input_panics :
    get_secondary_for_primary "abc" "666666" = .error .panic := by
  have h : get_rgb_from_hex "abc" = (.error .panic : Except Failure Color) := rfl
  simp [get_secondary_for_primary, h, Bind.bind, Except.bind]

theorem u8_radix16_shape (s : String) :
    (∃ v, u8FromStrRadix16 s = .ok v) ∨
    u8FromStrRadix16 s = .error (.err .ParseIntError) := by
  unfold u8FromStrRadix16
  split
  · split
    · exact .inl ⟨_, rfl⟩
    · exact .inr rfl
  · exact .inr rfl
  · exact .inr rfl

theorem mem_take_mono {α : Type} :
    ∀ (l : List α) (a b : Nat), a ≤ b →
      ∀ c, c ∈ l.take a → c ∈ l.take b := by
  intro l
  induction l with
  | nil => intro a b _ c hc; simp at hc
  | cons x xs ih =>
    intro a b hab c hc
    cases a with
    | zero => simp at hc
    | succ a2 =>
      cases b with
      | zero => omega
      | succ b2 =>
        simp only [List.take_succ_cons, List.mem_cons] at hc ⊢
        rcases hc with rfl | hc
        · exact .inl rfl
        · exact .inr (ih a2 b2 (by omega) c hc)

theorem mem_drop_take {α : Type} :
    ∀ (l : List α) (a b : Nat), a ≤ b →
      ∀ c, c ∈ (l.drop a).take (b - a) → c ∈ l.take b := by
  intro l
  induction l with
  | nil => intro a b _ c hc; simp at hc
  | cons x xs ih =>
    intro a b hab c hc
    cases a with
    | zero =>
      simpa using hc
    | succ a2 =>
      cases b with
      | zero => omega
      | succ b2 =>
        have he : b2 + 1 - (a2 + 1) = b2 - a2 := by omega
        rw [List.drop_succ_cons, he] at hc
        simp only [List.take_succ_cons, List.mem_cons]
        exact .inr (ih a2 b2 (by omega) c hc)

theorem dropBytes_ascii :
    ∀ (cs : List Char) (n : Nat), n ≤ cs.length →
      (∀ c ∈ cs.take n, c.utf8Size = 1) →
      dropBytes cs n = some (cs.drop n) := by
  intro cs
  induction cs with
  | nil =>
    intro n hn _
    cases n with
    | zero => rfl
    | succ m => simp at hn
  | cons c cs ih =>
    intro n hn hascii
    cases n with
    | zero => rfl
    | succ m =>
      have hc : c.utf8Size = 1 := hascii c (by simp [List.take_succ_cons])
      unfold dropBytes
      rw [hc, if_pos (by omega : 1 ≤ m + 1)]
      have he : m + 1 - 1 = m := by omega
      rw [he]
      rw [ih m (by simpa using hn)
        (fun d hd => hascii d (by simp [List.take_succ_cons, hd]))]
      rfl

theorem takeBytes_ascii :
    ∀ (cs : List Char) (n : Nat), n ≤ cs.length →
      (∀ c ∈ cs.take n, c.utf8Size = 1) →
      takeBytes cs n = some (cs.take n) := by
  intro cs
  induction cs with
  | nil =>
    intro n hn _
    cases n with
    | zero => rfl
    | succ m => simp at hn
  | cons c cs ih =>
    intro n hn hascii
    cases n with
    | zero => rfl
    | succ m =>
      have hc : c.utf8Size = 1 := hascii c (by simp [List.take_succ_cons])
      unfold takeBytes
      rw [hc, if_pos (by omega : 1 ≤ m + 1)]
      have he : m + 1 - 1 = m := by omega
      rw [he]
      rw [ih m (by simpa using hn)
        (fun d hd => hascii d (by simp [List.take_succ_cons, hd]))]
      simp [List.take_succ_cons]

theorem rustSlice_ascii_ok {s : String} {a b : Nat} (hab : a ≤ b)
    (hb : b ≤ s.data.length)
    (hascii : ∀ c ∈ s.data.take b, c.utf8Size = 1) :
    rustSlice s a b = .ok ⟨(s.data.drop a).take (b - a)⟩ := by
  unfold rustSlice
  rw [if_pos hab]
  simp only [dropBytes_ascii s.data a (by omega)
      (fun c hc => hascii c (mem_take_mono s.data a b hab c hc)),
    takeBytes_ascii (s.data.drop a) (b - a)
      (by rw [List.length_drop]; omega)
      (fun c hc => hascii c (mem_drop_take s.data a b hab c hc))]

theorem get_rgb_shape {s : String} (hlen : 6 ≤ s.data.length)
    (hascii : ∀ c ∈ s.data.take 6, c.utf8Size = 1) :
    (∃ col, get_rgb_from_hex s = .ok col) ∨
    get_rgb_from_hex s = .error (.err .ParseIntError) := by
  have ha2 : ∀ c ∈ s.data.take 2, c.utf8Size = 1 :=
    fun c hc => hascii c (mem_take_mono s.data 2 6 (by omega) c hc)
  have ha4 : ∀ c ∈ s.data.take 4, c.utf8Size = 1 :=
    fun c hc => hascii c (mem_take_mono s.data 4 6 (by omega) c hc)
  have h1 := rustSlice_ascii_ok (by omega : (0 : Nat) ≤ 2)
    (by omega : 2 ≤ s.data.length) ha2
  have h2 := rustSlice_ascii_ok (by omega : (2 : Nat) ≤ 4)
    (by omega : 4 ≤ s.data.length) ha4
  have h3 := rustSlice_ascii_ok (by omega : (4 : Nat) ≤ 6)
    (by omega : 6 ≤ s.data.length) hascii
  unfold get_rgb_from_hex
  simp only [Bind.bind, Except.bind, h1, h2, h3]
  rcases u8_radix16_shape ⟨(s.data.drop 0).take 2⟩ with ⟨v1, hv1⟩ | hv1 <;>
    simp only [hv1]
  · rcases u8_radix16_shape ⟨(s.data.drop 2).take 2⟩ with ⟨v2, hv2⟩ | hv2 <;>
      simp only [hv2]
    · rcases u8_radix16_shape ⟨(s.data.drop 4).take 2⟩ with ⟨v3, hv3⟩ | hv3 <;>
        simp only [hv3]
      · exact .inl ⟨_, rfl⟩
      · exact .inr trivial
    · exact .inr trivial
  · exact .inr trivial

/-- C8, amended: hex parsing is not total over arbitrary strings — the
byte-range slices panic on inputs shorter than six bytes (see the
counterexample "abc") and, more generally, whenever byte offset 2, 4 or
6 is out of range or falls inside a multi-byte character.  Over inputs
whose first six characters exist and are ASCII (every 6-hex-digit color,
and every ASCII string of length at least six, well- or malformed) the
resolver is total: it returns a color or a parse error on non-hex-digit
data, and never panics. -/
theorem resolve_secondary_total_on_ascii :
    ∀ p c : String, 6 ≤ p.data.length → 6 ≤ c.data.length →
      (∀ ch ∈ p.data.take 6, ch.utf8Size = 1) →
      (∀ ch ∈ c.data.take 6, ch.utf8Size = 1) →
      (∃ col, get_secondary_for_primary p c = .ok col) ∨
      get_secondary_for_primary p c = .error (.err .ParseIntError) := by
  intro p c hp hc hpa hca
  unfold get_secondary_for_primary
  rcases get_rgb_shape hp hpa with ⟨cp, hcp⟩ | hcp <;> rw [hcp] <;>
    simp only [Bind.bind, Except.bind]
  · rcases get_rgb_shape hc hca with ⟨cc, hcc⟩ | hcc <;> rw [hcc] <;>
      simp only [Bind.bind, Except.bind]
    · split_ifs <;> exact .inl ⟨_, rfl⟩
    · exact .inr trivial
  · exact .inr trivial

/-- Witness for the amended C8 at two six-character ASCII inputs. -/
theorem resolve_secondary_total_witness :
    (∃ col, get_secondary_for_primary "de3129" "666666" = .ok col) ∨
    get_secondary_for_primary "de3129" "666666" = .error (.err .ParseIntError) :=
  resolve_secondary_total_on_ascii "de3129" "666666"
    (by decide) (by decide) (by decide) (by decide)

/-! ## C9: Teamstroke roster name truncation. -/

/-- C9: evaluating the Teamstroke fallback at a roster whose athlete has
the two-letter last name "Im" panics (the source slices
`&last_name[0..5]`), where the spec prescribes keeping the whole short
name. -/
theorem from_teamstroke_short_surname_panics :
    from_teamstroke wShortNameCompetitor = .error .panic := rfl

/-! ## C5: golf leaderboard size and order. -/

theorem from_raw_data_position {line : String} {pos : Nat} {p : GolfPlayer}
    (h : from_raw_data line pos = .ok (some p)) : p.position = pos := by
  unfold from_raw_data at h
  split at h
  · next whole caps =>
    split at h
    · next pb sc =>
      obtain ⟨pa, hpa, h⟩ := exceptBind_ok h
      obtain ⟨pbs, hpbs, h⟩ := exceptBind_ok h
      injection h with h
      injection h with h
      subst h
      rfl
    · next => simp at h
  · simp at h

theorem mem_enumFrom_le {α : Type} {pr : Nat × α} :
    ∀ (l : List α) (n : Nat), pr ∈ List.enumFrom n l → n ≤ pr.1 := by
  intro l
  induction l with
  | nil => intro n h; cases h
  | cons x xs ih =>
    intro n h
    cases h with
    | head => exact le_refl _
    | tail _ h2 => exact le_trans (Nat.le_succ n) (ih (n + 1) h2)

theorem pairwise_enumFrom {α : Type} :
    ∀ (l : List α) (n : Nat),
      (List.enumFrom n l).Pairwise (fun a b => a.1 < b.1) := by
  intro l
  induction l with
  | nil => intro n; exact List.Pairwise.nil
  | cons x xs ih =>
    intro n
    refine List.Pairwise.cons ?_ (ih (n + 1))
    intro pr hpr
    exact lt_of_lt_of_le (Nat.lt_succ_self n) (mem_enumFrom_le xs (n + 1) hpr)

theorem rawTop5_spec :
    ∀ (pairs : List (Nat × String)) (n : Nat) (l : List GolfPlayer),
      rawTop5 n pairs = .ok l →
      l.length ≤ n ∧ ∀ p ∈ l, ∃ pr ∈ pairs, p.position = pr.1 := by
  intro pairs
  induction pairs with
  | nil =>
    intro n l h
    cases n <;> (injection h with h; subst h) <;>
      exact ⟨by simp, by simp⟩
  | cons pr rest ih =>
    intro n l h
    cases n with
    | zero =>
      injection h with h; subst h
      exact ⟨by simp, by simp⟩
    | succ m =>
      obtain ⟨i, line⟩ := pr
      unfold rawTop5 at h
      cases hfr : from_raw_data line i with
      | error e => rw [hfr] at h; simp [Bind.bind, Except.bind] at h
      | ok o =>
        rw [hfr] at h
        simp only [Bind.bind, Except.bind] at h
        cases o with
        | none =>
          obtain ⟨hl, hm⟩ := ih (m + 1) l h
          exact ⟨hl, fun p hp => by
            obtain ⟨q, hq, hpos⟩ := hm p hp
            exact ⟨q, List.mem_cons_of_mem _ hq, hpos⟩⟩
        | some p0 =>
          obtain ⟨tail, htail, h⟩ := exceptBind_ok h
          injection h with h
          subst h
          obtain ⟨hl, hm⟩ := ih m tail htail
          refine ⟨by simpa using Nat.succ_le_succ hl, ?_⟩
          intro p hp
          cases hp with
          | head =>
            exact ⟨(i, line), List.mem_cons_self _ _,
              from_raw_data_position hfr⟩
          | tail _ hp2 =>
            obtain ⟨q, hq, hpos⟩ := hm p hp2
            exact ⟨q, List.mem_cons_of_mem _ hq, hpos⟩

theorem rawTop5_sorted :
    ∀ (pairs : List (Nat × String)) (n : Nat) (l : List GolfPlayer),
      pairs.Pairwise (fun a b => a.1 < b.1) →
      rawTop5 n pairs = .ok l →
      l.Pairwise (fun a b => a.position ≤ b.position) := by
  intro pairs
  induction pairs with
  | nil =>
    intro n l _ h
    cases n <;> (injection h with h; subst h) <;> exact List.Pairwise.nil
  | cons pr rest ih =>
    intro n l hpw h
    cases n with
    | zero =>
      injection h with h; subst h
      exact List.Pairwise.nil
    | succ m =>
      obtain ⟨i, line⟩ := pr
      unfold rawTop5 at h
      cases hfr : from_raw_data line i with
      | error e => rw [hfr] at h; simp [Bind.bind, Except.bind] at h
      | ok o =>
        rw [hfr] at h
        simp only [Bind.bind, Except.bind] at h
        cases o with
        | none =>
          exact ih (m + 1) l
            (List.Pairwise.sublist (List.sublist_cons_self _ _) hpw) h
        | some p0 =>
          obtain ⟨tail, htail, h⟩ := exceptBind_ok h
          injection h with h
          subst h
          refine List.Pairwise.cons ?_
            (ih m tail
              (List.Pairwise.sublist (List.sublist_cons_self _ _) hpw) htail)
          intro q hq
          obtain ⟨⟨j, line2⟩, hjmem, hjpos⟩ :=
            (rawTop5_spec rest m tail htail).2 q hq
          have hij : i < j := by
            have := List.rel_of_pairwise_cons hpw hjmem
            simpa using this
          have hp0 : p0.position = i := from_raw_data_position hfr
          omega

theorem sortByPosition_sorted (candidates : List GolfPlayer) :
    (sortByPosition candidates).Pairwise
      (fun a b => a.position ≤ b.position) := by
  have h := @List.sorted_mergeSort GolfPlayer
    (fun a b => decide (a.position ≤ b.position))
    (fun a b c h1 h2 => by
      simp only [decide_eq_true_eq] at h1 h2 ⊢
      omega)
    (fun a b => by simpa using Nat.le_total a.position b.position)
    candidates
  exact h.imp (fun hab => by simpa using hab)

theorem sortTake_spec (cands : List GolfPlayer) :
    ((sortByPosition cands).take 5).length ≤ 5 ∧
    ((sortByPosition cands).take 5).Pairwise
      (fun a b => a.position ≤ b.position) :=
  ⟨List.length_take_le _ _,
   List.Pairwise.sublist (List.take_sublist _ _) (sortByPosition_sorted cands)⟩

/-- C5. Every leaderboard the golf block emits has at most five players
and is sorted ascending by the numeric position, in all three extraction
branches. -/
theorem golf_top5_sorted :
    ∀ (competition : Json) (status status2 : Status)
      (players : List GolfPlayer),
      process_golf_top_5 competition status = .ok (status2, players) →
      players.length ≤ 5 ∧
      players.Pairwise (fun a b => a.position ≤ b.position) := by
  intro competition status status2 players h
  unfold process_golf_top_5 at h
  obtain ⟨ssobj, hss, h⟩ := exceptBind_ok h
  obtain ⟨ssname, hname, h⟩ := exceptBind_ok h
  by_cases hteam : ssname = "Teamstroke"
  · rw [if_pos hteam] at h
    cases hraw : get_str_from_value competition "rawData" with
    | ok raw =>
      rw [hraw] at h
      dsimp only at h
      obtain ⟨top5, htop, h⟩ := exceptBind_ok h
      injection h with h
      rw [Prod.mk.injEq] at h
      obtain ⟨h1, h2⟩ := h
      subst h2
      refine ⟨(rawTop5_spec _ 5 _ htop).1, ?_⟩
      exact rawTop5_sorted _ 5 _ (pairwise_enumFrom _ 0) htop
    | error e =>
      rw [hraw] at h
      obtain ⟨competitors, hcomp, h⟩ := exceptBind_ok h
      obtain ⟨cands, hcands, h⟩ := exceptBind_ok h
      injection h with h
      rw [Prod.mk.injEq] at h
      obtain ⟨h1, h2⟩ := h
      subst h2
      exact sortTake_spec cands
  · rw [if_neg hteam] at h
    obtain ⟨competitors, hcomp, h⟩ := exceptBind_ok h
    obtain ⟨cands, hcands, h⟩ := exceptBind_ok h
    injection h with h
    rw [Prod.mk.injEq] at h
    obtain ⟨h1, h2⟩ := h
    subst h2
    exact sortTake_spec cands

/-- Witness for C5: an individual-scoring event with an empty competitor
list yields the empty, trivially sorted leaderboard. -/
theorem golf_top5_sorted_witness :
    ([] : List GolfPlayer).length ≤ 5 ∧
    ([] : List GolfPlayer).Pairwise (fun a b => a.position ≤ b.position) := by
  have hin : process_golf_top_5 wGolfCompetition .Pregame =
      .ok (.Pregame, []) := by
    simp [process_golf_top_5, wGolfCompetition, get_object_from_value,
      get_str_from_value, get_array_from_value, get_str, jsonGet,
      Json.getField, Json.asObject, Json.asStr, Json.asArray, Bind.bind,
      Except.bind, sortByPosition, List.mapM, List.mapM.loop, Pure.pure,
      Except.pure]
  exact golf_top5_sorted wGolfCompetition .Pregame .Pregame [] hin


/-! ## C3 and C4: the TTL cache. -/

theorem readPhase_futures_iff (cache : Cache) (now : Nat) :
    ∀ (sports : List Sport) (results : ResultsMap) (futures : List Sport),
      cacheReadPhase cache now sports = .ok (results, futures) →
      ∀ t, t ∈ futures ↔ t ∈ sports ∧ needsRefetch cache now t := by
  intro sports
  induction sports with
  | nil =>
    intro results futures h t
    injection h with h
    rw [Prod.mk.injEq] at h
    obtain ⟨-, h2⟩ := h
    subst h2
    simp
  | cons sport rest ih =>
    intro results futures h t
    unfold cacheReadPhase at h
    cases hc : cache sport with
    | some entry =>
      simp only [hc] at h
      by_cases hfresh : now - entry.last_updated < durationFromSecs 60
      · rw [if_pos hfresh] at h
        cases hsnap : entry.snapshot with
        | some r =>
          simp only [hsnap] at h
          cases hrec : cacheReadPhase cache now rest with
          | error e => simp only [hrec] at h; cases h
          | ok pr =>
            obtain ⟨res0, fut0⟩ := pr
            simp only [hrec] at h
            injection h with h
            rw [Prod.mk.injEq] at h
            obtain ⟨-, h2⟩ := h
            subst h2
            rw [ih res0 fut0 hrec t]
            constructor
            · rintro ⟨ht, hcond⟩
              exact ⟨List.mem_cons_of_mem _ ht, hcond⟩
            · rintro ⟨ht, hcond⟩
              rcases List.mem_cons.mp ht with rfl | ht
              · exfalso
                rcases hcond with hnone | ⟨e, he, hstale⟩
                · simp only [hc] at hnone; cases hnone
                · simp only [hc] at he
                  injection he with he
                  subst he
                  exact hstale hfresh
              · exact ⟨ht, hcond⟩
        | none => simp only [hsnap] at h; cases h
      · rw [if_neg hfresh] at h
        cases hrec : cacheReadPhase cache now rest with
        | error e => simp only [hrec] at h; cases h
        | ok pr =>
          obtain ⟨res0, fut0⟩ := pr
          simp only [hrec] at h
          injection h with h
          rw [Prod.mk.injEq] at h
          obtain ⟨-, h2⟩ := h
          subst h2
          constructor
          · intro ht
            rcases List.mem_cons.mp ht with rfl | ht
            · exact ⟨List.mem_cons_self _ _, .inr ⟨entry, hc, hfresh⟩⟩
            · obtain ⟨h1, h2⟩ := (ih res0 fut0 hrec t).mp ht
              exact ⟨List.mem_cons_of_mem _ h1, h2⟩
          · rintro ⟨ht, hcond⟩
            rcases List.mem_cons.mp ht with rfl | ht
            · exact List.mem_cons_self _ _
            · exact List.mem_cons_of_mem _ ((ih res0 fut0 hrec t).mpr ⟨ht, hcond⟩)
    | none =>
      simp only [hc] at h
      cases hrec : cacheReadPhase cache now rest with
      | error e => simp only [hrec] at h; cases h
      | ok pr =>
        obtain ⟨res0, fut0⟩ := pr
        simp only [hrec] at h
        injection h with h
        rw [Prod.mk.injEq] at h
        obtain ⟨-, h2⟩ := h
        subst h2
        constructor
        · intro ht
          rcases List.mem_cons.mp ht with rfl | ht
          · exact ⟨List.mem_cons_self _ _, .inl hc⟩
          · obtain ⟨h1, h2⟩ := (ih res0 fut0 hrec t).mp ht
            exact ⟨List.mem_cons_of_mem _ h1, h2⟩
        · rintro ⟨ht, hcond⟩
          rcases List.mem_cons.mp ht with rfl | ht
          · exact List.mem_cons_self _ _
          · exact List.mem_cons_of_mem _ ((ih res0 fut0 hrec t).mpr ⟨ht, hcond⟩)

theorem readPhase_serves_fresh (cache : Cache) (now : Nat) :
    ∀ (sports : List Sport) (results : ResultsMap) (futures : List Sport)
      (s : Sport) (e : CacheEntry) (r : List Game),
      cacheReadPhase cache now sports = .ok (results, futures) →
      s ∈ sports → cache s = some e →
      now - e.last_updated < durationFromSecs 60 → e.snapshot = some r →
      results s = some r := by
  intro sports
  induction sports with
  | nil => intro _ _ s _ _ _ hmem; cases hmem
  | cons sport rest ih =>
    intro results futures s e r h hmem hc hfresh hsnap
    unfold cacheReadPhase at h
    by_cases hs : s = sport
    · subst hs
      simp only [hc, if_pos hfresh, hsnap] at h
      cases hrec : cacheReadPhase cache now rest with
      | error e2 => simp only [hrec] at h; cases h
      | ok pr =>
        obtain ⟨res0, fut0⟩ := pr
        simp only [hrec] at h
        injection h with h
        rw [Prod.mk.injEq] at h
        obtain ⟨h1, -⟩ := h
        subst h1
        simp [resultsInsert]
    · cases hc2 : cache sport with
      | some entry =>
        simp only [hc2] at h
        by_cases hfresh2 : now - entry.last_updated < durationFromSecs 60
        · rw [if_pos hfresh2] at h
          cases hsnap2 : entry.snapshot with
          | some r2 =>
            simp only [hsnap2] at h
            cases hrec : cacheReadPhase cache now rest with
            | error e2 => simp only [hrec] at h; cases h
            | ok pr =>
              obtain ⟨res0, fut0⟩ := pr
              simp only [hrec] at h
              injection h with h
              rw [Prod.mk.injEq] at h
              obtain ⟨h1, -⟩ := h
              subst h1
              have hmem2 : s ∈ rest := by
                rcases List.mem_cons.mp hmem with h' | h'
                · exact absurd h' hs
                · exact h'
              rw [resultsInsert, if_neg hs]
              exact ih res0 fut0 s e r hrec hmem2 hc hfresh hsnap
          | none => simp only [hsnap2] at h; cases h
        · rw [if_neg hfresh2] at h
          cases hrec : cacheReadPhase cache now rest with
          | error e2 => simp only [hrec] at h; cases h
          | ok pr =>
            obtain ⟨res0, fut0⟩ := pr
            simp only [hrec] at h
            injection h with h
            rw [Prod.mk.injEq] at h
            obtain ⟨h1, -⟩ := h
            subst h1
            have hmem2 : s ∈ rest := by
              rcases List.mem_cons.mp hmem with h' | h'
              · exact absurd h' hs
              · exact h'
            exact ih res0 fut0 s e r hrec hmem2 hc hfresh hsnap
      | none =>
        simp only [hc2] at h
        cases hrec : cacheReadPhase cache now rest with
        | error e2 => simp only [hrec] at h; cases h
        | ok pr =>
          obtain ⟨res0, fut0⟩ := pr
          simp only [hrec] at h
          injection h with h
          rw [Prod.mk.injEq] at h
          obtain ⟨h1, -⟩ := h
          subst h1
          have hmem2 : s ∈ rest := by
            rcases List.mem_cons.mp hmem with h' | h'
            · exact absurd h' hs
            · exact h'
          exact ih res0 fut0 s e r hrec hmem2 hc hfresh hsnap

theorem readPhase_fails_on_fresh_failure (cache : Cache) (now : Nat) :
    ∀ (sports : List Sport) (s : Sport) (e : CacheEntry),
      s ∈ sports → cache s = some e →
      now - e.last_updated < durationFromSecs 60 → e.snapshot = none →
      cacheReadPhase cache now sports = .error .internalServerError := by
  intro sports
  induction sports with
  | nil => intro s _ hmem; cases hmem
  | cons sport rest ih =>
    intro s e hmem hc hfresh hsnap
    unfold cacheReadPhase
    by_cases hs : s = sport
    · subst hs
      simp only [hc, if_pos hfresh, hsnap]
    · have hmem2 : s ∈ rest := by
        rcases List.mem_cons.mp hmem with h' | h'
        · exact absurd h' hs
        · exact h'
      have hrec := ih s e hmem2 hc hfresh hsnap
      cases hc2 : cache sport with
      | some entry =>
        by_cases hfresh2 : now - entry.last_updated < durationFromSecs 60
        · cases hsnap2 : entry.snapshot with
          | some r2 => simp only [hc2, if_pos hfresh2, hsnap2, hrec]
          | none => simp only [hc2, if_pos hfresh2, hsnap2]
        · simp only [hc2, if_neg hfresh2, hrec]
      | none => simp only [hc2, hrec]

theorem writePhase_results_not_mem (f : Sport → Option (List Game)) (now2 : Nat) :
    ∀ (queue : List Sport) (results : ResultsMap) (cache : Cache) (b : Bool)
      (s : Sport), s ∉ queue →
      (cacheWritePhase f now2 queue results cache b).1 s = results s := by
  intro queue
  induction queue with
  | nil => intro results cache b s _; rfl
  | cons sport rest ih =>
    intro results cache b s hs
    have hs1 : s ≠ sport := fun h => hs (h ▸ List.mem_cons_self _ _)
    have hs2 : s ∉ rest := fun h => hs (List.mem_cons_of_mem _ h)
    unfold cacheWritePhase
    cases hf : f sport with
    | some r => rw [ih _ _ _ s hs2, resultsInsert, if_neg hs1]
    | none => exact ih _ _ _ s hs2

theorem writePhase_cache_not_mem (f : Sport → Option (List Game)) (now2 : Nat) :
    ∀ (queue : List Sport) (results : ResultsMap) (cache : Cache) (b : Bool)
      (s : Sport), s ∉ queue →
      (cacheWritePhase f now2 queue results cache b).2.1 s = cache s := by
  intro queue
  induction queue with
  | nil => intro results cache b s _; rfl
  | cons sport rest ih =>
    intro results cache b s hs
    have hs1 : s ≠ sport := fun h => hs (h ▸ List.mem_cons_self _ _)
    have hs2 : s ∉ rest := fun h => hs (List.mem_cons_of_mem _ h)
    unfold cacheWritePhase
    cases hf : f sport with
    | some r => rw [ih _ _ _ s hs2, cacheInsert, if_neg hs1]
    | none => rw [ih _ _ _ s hs2, cacheInsert, if_neg hs1]

theorem writePhase_cache_mem (f : Sport → Option (List Game)) (now2 : Nat) :
    ∀ (queue : List Sport) (results : ResultsMap) (cache : Cache) (b : Bool)
      (s : Sport), s ∈ queue →
      (cacheWritePhase f now2 queue results cache b).2.1 s =
        some ⟨now2, f s⟩ := by
  intro queue
  induction queue with
  | nil => intro _ _ _ s hmem; cases hmem
  | cons sport rest ih =>
    intro results cache b s hmem
    unfold cacheWritePhase
    by_cases hrest : s ∈ rest
    · cases hf : f sport with
      | some r => exact ih _ _ _ s hrest
      | none => exact ih _ _ _ s hrest
    · have hs : s = sport := by
        rcases List.mem_cons.mp hmem with h' | h'
        · exact h'
        · exact absurd h' hrest
      subst hs
      cases hf : f s with
      | some r =>
        rw [writePhase_cache_not_mem f now2 rest _ _ _ s hrest,
          cacheInsert, if_pos rfl]
      | none =>
        rw [writePhase_cache_not_mem f now2 rest _ _ _ s hrest,
          cacheInsert, if_pos rfl]

theorem writePhase_results_mem_some (f : Sport → Option (List Game)) (now2 : Nat) :
    ∀ (queue : List Sport) (results : ResultsMap) (cache : Cache) (b : Bool)
      (s : Sport) (r : List Game), s ∈ queue → f s = some r →
      (cacheWritePhase f now2 queue results cache b).1 s = some r := by
  intro queue
  induction queue with
  | nil => intro _ _ _ s r hmem; cases hmem
  | cons sport rest ih =>
    intro results cache b s r hmem hf
    unfold cacheWritePhase
    by_cases hrest : s ∈ rest
    · cases hf2 : f sport with
      | some r2 => exact ih _ _ _ s r hrest hf
      | none => exact ih _ _ _ s r hrest hf
    · have hs : s = sport := by
        rcases List.mem_cons.mp hmem with h' | h'
        · exact h'
        · exact absurd h' hrest
      subst hs
      rw [hf]
      rw [writePhase_results_not_mem f now2 rest _ _ _ s hrest,
        resultsInsert, if_pos rfl]

theorem writePhase_flag (f : Sport → Option (List Game)) (now2 : Nat) :
    ∀ (queue : List Sport) (results : ResultsMap) (cache : Cache) (b : Bool),
      (cacheWritePhase f now2 queue results cache b).2.2 =
        (b || queue.any (fun s => (f s).isNone)) := by
  intro queue
  induction queue with
  | nil => intro results cache b; simp [cacheWritePhase]
  | cons sport rest ih =>
    intro results cache b
    unfold cacheWritePhase
    cases hf : f sport with
    | some r => rw [ih]; simp [hf]
    | none => rw [ih]; simp [hf]

/-- C3. In a cache `get`: any requested sport with a fresh failure-marker
entry fails the whole call; a requested sport with a fresh successful
entry is served from its snapshot, is not refetched, and appears
unchanged in any successful response; and the refetch queue holds
exactly the requested sports with no entry or a stale one. -/
theorem cache_fresh_hit (cache : Cache) (now now2 : Nat)
    (fetchSport : Sport → Option (List Game)) (sports : List Sport)
    (s : Sport) (e : CacheEntry) (hmem : s ∈ sports) (hc : cache s = some e)
    (hfresh : now - e.last_updated < durationFromSecs 60) :
    (e.snapshot = none →
      (get_scores_for_sports cache now now2 fetchSport sports).1 =
        .error .internalServerError) ∧
    (∀ r results futures, e.snapshot = some r →
      cacheReadPhase cache now sports = .ok (results, futures) →
      s ∉ futures ∧ results s = some r ∧
      ∀ m, (get_scores_for_sports cache now now2 fetchSport sports).1 = .ok m →
        m s = some r) ∧
    (∀ results futures,
      cacheReadPhase cache now sports = .ok (results, futures) →
      ∀ t, t ∈ futures ↔ t ∈ sports ∧ needsRefetch cache now t) := by
  refine ⟨?_, ?_, ?_⟩
  · intro hsnap
    have herr := readPhase_fails_on_fresh_failure cache now sports s e
      hmem hc hfresh hsnap
    unfold get_scores_for_sports
    rw [herr]
  · intro r results futures hsnap hread
    have hnotfut : s ∉ futures := by
      intro hcon
      rcases (readPhase_futures_iff cache now sports results futures hread
        s).mp hcon with ⟨-, hnone | ⟨e2, he2, hstale⟩⟩
      · rw [hc] at hnone; cases hnone
      · rw [hc] at he2
        injection he2 with he2
        subst he2
        exact hstale hfresh
    refine ⟨hnotfut,
      readPhase_serves_fresh cache now sports results futures s e r
        hread hmem hc hfresh hsnap, ?_⟩
    intro m hm
    unfold get_scores_for_sports at hm
    rw [hread] at hm
    dsimp only at hm
    cases hflag : (cacheWritePhase fetchSport now2 futures results cache
        false).2.2 with
    | true => rw [hflag] at hm; simp at hm
    | false =>
      rw [hflag] at hm
      simp only [Bool.false_eq_true, if_false] at hm
      injection hm with hm
      subst hm
      exact (writePhase_results_not_mem fetchSport now2 futures results
        cache false s hnotfut).trans
        (readPhase_serves_fresh cache now sports results futures s e r
          hread hmem hc hfresh hsnap)
  · exact readPhase_futures_iff cache now sports

/-- C4. After the refetch phase: every refetched sport is stored in the
cache as `(now2, fetch result)` — `some games` on success, `none` on
failure — unfetched sports keep their entries; one failed fetch turns
the whole response into an error even though the successes were written;
with no failure the response merges fresh results with the already-fresh
served map. -/
theorem cache_refetch_update (cache : Cache) (now now2 : Nat)
    (fetchSport : Sport → Option (List Game)) (sports : List Sport)
    (results0 : ResultsMap) (futures : List Sport)
    (hread : cacheReadPhase cache now sports = .ok (results0, futures)) :
    (∀ s, s ∈ futures →
      (get_scores_for_sports cache now now2 fetchSport sports).2 s =
        some ⟨now2, fetchSport s⟩) ∧
    (∀ s, s ∉ futures →
      (get_scores_for_sports cache now now2 fetchSport sports).2 s =
        cache s) ∧
    ((∃ s ∈ futures, fetchSport s = none) →
      (get_scores_for_sports cache now now2 fetchSport sports).1 =
        .error .internalServerError) ∧
    ((∀ s ∈ futures, fetchSport s ≠ none) →
      ∃ m, (get_scores_for_sports cache now now2 fetchSport sports).1 =
          .ok m ∧
        (∀ s ∈ futures, m s = fetchSport s) ∧
        (∀ s, s ∉ futures → m s = results0 s)) := by
  refine ⟨?_, ?_, ?_, ?_⟩
  · intro s hs
    unfold get_scores_for_sports
    rw [hread]
    dsimp only
    exact writePhase_cache_mem fetchSport now2 futures results0 cache false
      s hs
  · intro s hs
    unfold get_scores_for_sports
    rw [hread]
    dsimp only
    exact writePhase_cache_not_mem fetchSport now2 futures results0 cache
      false s hs
  · rintro ⟨s, hs, hf⟩
    unfold get_scores_for_sports
    rw [hread]
    dsimp only
    have hany : futures.any (fun t => (fetchSport t).isNone) = true := by
      rw [List.any_eq_true]
      exact ⟨s, hs, by rw [hf]; rfl⟩
    rw [writePhase_flag, hany]
    rfl
  · intro hall
    have hany : futures.any (fun t => (fetchSport t).isNone) = false := by
      rw [List.any_eq_false]
      intro t ht
      cases hft : fetchSport t with
      | some r => simp
      | none => exact absurd hft (hall t ht)
    refine ⟨(cacheWritePhase fetchSport now2 futures results0 cache false).1,
      ?_, ?_, ?_⟩
    · unfold get_scores_for_sports
      rw [hread]
      dsimp only
      rw [writePhase_flag, hany]
      rfl
    · intro s hs
      cases hft : fetchSport s with
      | some r =>
        exact writePhase_results_mem_some fetchSport now2 futures results0
          cache false s r hs hft
      | none => exact absurd hft (hall s hs)
    · intro s hs
      exact writePhase_results_not_mem fetchSport now2 futures results0
        cache false s hs

/-- Witness for C3: a single requested sport with a fresh successful
entry is served and not refetched. -/
theorem cache_fresh_hit_witness :
    wSport ∉ ([] : List Sport) ∧
    resultsInsert emptyResults wSport [] wSport = some ([] : List Game) := by
  have H := (cache_fresh_hit wFreshCache 0 0 wFetch [wSport] wSport
    ⟨0, some []⟩ (List.mem_cons_self _ _) rfl (by decide)).2.1
    [] (resultsInsert emptyResults wSport []) [] rfl rfl
  exact ⟨H.1, H.2.1⟩

/-- Witness for C4: a missing entry is refetched and rewritten as a
fresh success at the write-phase clock reading. -/
theorem cache_refetch_update_witness :
    (get_scores_for_sports wCache 0 5 wFetch [wSport]).2 wSport =
      some ⟨5, wFetch wSport⟩ :=
  (cache_refetch_update wCache 0 5 wFetch [wSport] emptyResults [wSport]
    rfl).1 wSport (List.mem_cons_self _ _)

/-! ## C7 and C10: the color resolver over the reals. -/

theorem rpow24_pow5 {y : ℝ} (hy : 0 ≤ y) :
    (y ^ (2.4 : ℝ)) ^ (5 : ℕ) = y ^ (12 : ℕ) := by
  rw [← Real.rpow_natCast (y ^ (2.4 : ℝ)) 5, ← Real.rpow_mul hy]
  have h : (2.4 : ℝ) * (5 : ℕ) = ((12 : ℕ) : ℝ) := by norm_num
  rw [h, Real.rpow_natCast]

theorem rpow24_lt {y a : ℝ} (hy : 0 ≤ y) (ha : 0 ≤ a)
    (h : y ^ (12 : ℕ) < a ^ (5 : ℕ)) : y ^ (2.4 : ℝ) < a := by
  refine lt_of_pow_lt_pow_left₀ 5 ha ?_
  rw [rpow24_pow5 hy]
  exact h

theorem lt_rpow24 {y a : ℝ} (hy : 0 ≤ y) (_ha : 0 ≤ a)
    (h : a ^ (5 : ℕ) < y ^ (12 : ℕ)) : a < y ^ (2.4 : ℝ) := by
  refine lt_of_pow_lt_pow_left₀ 5 (Real.rpow_nonneg hy _) ?_
  rw [rpow24_pow5 hy]
  exact h

theorem newValue_nonneg {c : ℝ} (hc : 0 ≤ c) : 0 ≤ newValue c := by
  unfold newValue
  split
  · positivity
  · refine Real.rpow_nonneg ?_ _
    have : (0:ℝ) ≤ c + 0.055 := by linarith
    positivity

theorem get_luminance_nonneg (color : Color) : 0 ≤ get_luminance color := by
  unfold get_luminance
  have h1 : 0 ≤ newValue (((color.r % 256 : Nat) : ℝ) / 255) :=
    newValue_nonneg (by positivity)
  have h2 : 0 ≤ newValue (((color.g % 256 : Nat) : ℝ) / 255) :=
    newValue_nonneg (by positivity)
  have h3 : 0 ≤ newValue (((color.b % 256 : Nat) : ℝ) / 255) :=
    newValue_nonneg (by positivity)
  dsimp only
  nlinarith

theorem nv_de_r_lt : newValue ((222 : ℝ) / 255) < 0.7304608 := by
  rw [newValue, if_neg (by norm_num)]
  have h : ((222 : ℝ) / 255 + 0.055) / 1.055 = 3147 / 3587 := by norm_num
  rw [h]
  exact rpow24_lt (by norm_num) (by norm_num) (by norm_num)

theorem nv_de_r_gt : (0.73 : ℝ) < newValue ((222 : ℝ) / 255) := by
  rw [newValue, if_neg (by norm_num)]
  have h : ((222 : ℝ) / 255 + 0.055) / 1.055 = 3147 / 3587 := by norm_num
  rw [h]
  exact lt_rpow24 (by norm_num) (by norm_num) (by norm_num)

theorem nv_de_g_lt : newValue ((49 : ℝ) / 255) < 0.0307135 := by
  rw [newValue, if_neg (by norm_num)]
  have h : ((49 : ℝ) / 255 + 0.055) / 1.055 = 2521 / 10761 := by norm_num
  rw [h]
  exact rpow24_lt (by norm_num) (by norm_num) (by norm_num)

theorem nv_de_b_lt : newValue ((41 : ℝ) / 255) < 0.0221739 := by
  rw [newValue, if_neg (by norm_num)]
  have h : ((41 : ℝ) / 255 + 0.055) / 1.055 = 2201 / 10761 := by norm_num
  rw [h]
  exact rpow24_lt (by norm_num) (by norm_num) (by norm_num)

theorem nv_66_lt : newValue ((102 : ℝ) / 255) < 0.1328684 := by
  rw [newValue, if_neg (by norm_num)]
  have h : ((102 : ℝ) / 255 + 0.055) / 1.055 = 91 / 211 := by norm_num
  rw [h]
  exact rpow24_lt (by norm_num) (by norm_num) (by norm_num)

theorem nv_66_gt : (0.1328 : ℝ) < newValue ((102 : ℝ) / 255) := by
  rw [newValue, if_neg (by norm_num)]
  have h : ((102 : ℝ) / 255 + 0.055) / 1.055 = 91 / 211 := by norm_num
  rw [h]
  exact lt_rpow24 (by norm_num) (by norm_num) (by norm_num)

theorem lum_white : get_luminance whiteColor = 1 := by
  have hnv : newValue 1 = 1 := by
    rw [newValue, if_neg (by norm_num)]
    have h : ((1 : ℝ) + 0.055) / 1.055 = 1 := by norm_num
    rw [h, Real.one_rpow]
  unfold get_luminance whiteColor
  norm_num
  rw [hnv]
  norm_num

theorem lum_black : get_luminance blackColor = 0 := by
  have hnv : newValue 0 = 0 := by
    rw [newValue, if_pos (by norm_num)]
    norm_num
  unfold get_luminance blackColor
  norm_num
  rw [hnv]
  norm_num

theorem lum_de_lt : get_luminance ⟨222, 49, 41⟩ < 0.17887 := by
  unfold get_luminance
  have h1 := nv_de_r_lt
  have h2 := nv_de_g_lt
  have h3 := nv_de_b_lt
  norm_num
  nlinarith [h1, h2, h3]

theorem lum_de_gt : (0.155 : ℝ) < get_luminance ⟨222, 49, 41⟩ := by
  unfold get_luminance
  have h1 := nv_de_r_gt
  have h2 : 0 ≤ newValue ((49 : ℝ) / 255) := newValue_nonneg (by norm_num)
  have h3 : 0 ≤ newValue ((41 : ℝ) / 255) := newValue_nonneg (by norm_num)
  norm_num
  nlinarith [h1, h2, h3]

theorem lum_66_lt : get_luminance ⟨102, 102, 102⟩ < 0.1329 := by
  unfold get_luminance
  have h1 := nv_66_lt
  norm_num
  nlinarith [h1]

theorem lum_66_gt : (0.1328 : ℝ) < get_luminance ⟨102, 102, 102⟩ := by
  unfold get_luminance
  have h1 := nv_66_gt
  norm_num
  nlinarith [h1]

theorem contrast_self (c : Color) : get_contrast c c = 1 := by
  unfold get_contrast
  dsimp only
  have h := get_luminance_nonneg c
  rw [max_self, min_self]
  rw [div_self (by linarith)]

theorem contrast_de_66_le :
    get_contrast ⟨222, 49, 41⟩ ⟨102, 102, 102⟩ ≤ 3.5 := by
  unfold get_contrast
  have h1 := lum_de_lt
  have h2 := lum_de_gt
  have h3 := lum_66_lt
  have h4 := lum_66_gt
  have hmax : max (get_luminance ⟨222, 49, 41⟩)
      (get_luminance ⟨102, 102, 102⟩) ≤ 0.17887 :=
    max_le (le_of_lt h1) (by linarith)
  have hmin : (0.1328 : ℝ) ≤ min (get_luminance ⟨222, 49, 41⟩)
      (get_luminance ⟨102, 102, 102⟩) :=
    le_min (by linarith) (le_of_lt h4)
  rw [div_le_iff₀ (by linarith)]
  nlinarith

theorem resolve_keeps_candidate (p c : String) (cp cc : Color)
    (hp : get_rgb_from_hex p = .ok cp) (hc : get_rgb_from_hex c = .ok cc)
    (h1 : 3.5 < get_contrast cp cc) :
    get_secondary_for_primary p c = .ok cc := by
  unfold get_secondary_for_primary
  simp only [hp, hc, Bind.bind, Except.bind]
  rw [if_pos h1]

theorem resolve_picks_white (p c : String) (cp cc : Color)
    (hp : get_rgb_from_hex p = .ok cp) (hc : get_rgb_from_hex c = .ok cc)
    (h1 : get_contrast cp cc ≤ 3.5)
    (h2 : get_contrast cp blackColor < get_contrast cp whiteColor) :
    get_secondary_for_primary p c = .ok whiteColor := by
  unfold get_secondary_for_primary
  simp only [hp, hc, Bind.bind, Except.bind]
  rw [if_neg (not_lt.mpr h1), if_pos h2]

theorem resolve_picks_black (p c : String) (cp cc : Color)
    (hp : get_rgb_from_hex p = .ok cp) (hc : get_rgb_from_hex c = .ok cc)
    (h1 : get_contrast cp cc ≤ 3.5)
    (h2 : get_contrast cp whiteColor ≤ get_contrast cp blackColor) :
    get_secondary_for_primary p c = .ok blackColor := by
  unfold get_secondary_for_primary
  simp only [hp, hc, Bind.bind, Except.bind]
  rw [if_neg (not_lt.mpr h1), if_neg (not_lt.mpr h2)]

theorem contrast_black_lt_white_of_dark {cp : Color}
    (hlt : get_luminance cp < 0.17887) :
    get_contrast cp blackColor < get_contrast cp whiteColor := by
  unfold get_contrast
  dsimp only
  rw [lum_white, lum_black]
  have h2 := get_luminance_nonneg cp
  rw [max_eq_right (by linarith : get_luminance cp ≤ 1),
    min_eq_left (by linarith : get_luminance cp ≤ 1),
    max_eq_left (h2 : (0:ℝ) ≤ get_luminance cp),
    min_eq_right (h2 : (0:ℝ) ≤ get_luminance cp)]
  rw [div_lt_div_iff₀ (by norm_num) (by linarith)]
  nlinarith

/-- C7. The resolver keeps the candidate exactly when its contrast with
the primary exceeds 3.5, otherwise picks white when white out-contrasts
black against the primary and black otherwise; in particular primary
"de3129" with candidate "666666" resolves to pure white. -/
theorem resolve_secondary_branching :
    (∀ (p c : String) (cp cc : Color),
      get_rgb_from_hex p = .ok cp → get_rgb_from_hex c = .ok cc →
      (3.5 < get_contrast cp cc →
        get_secondary_for_primary p c = .ok cc) ∧
      (get_contrast cp cc ≤ 3.5 →
        get_contrast cp blackColor < get_contrast cp whiteColor →
        get_secondary_for_primary p c = .ok whiteColor) ∧
      (get_contrast cp cc ≤ 3.5 →
        get_contrast cp whiteColor ≤ get_contrast cp blackColor →
        get_secondary_for_primary p c = .ok blackColor)) ∧
    get_secondary_for_primary "de3129" "666666" = .ok whiteColor :=
  ⟨fun p c cp cc hp hc =>
    ⟨fun h1 => resolve_keeps_candidate p c cp cc hp hc h1,
     fun h1 h2 => resolve_picks_white p c cp cc hp hc h1 h2,
     fun h1 h2 => resolve_picks_black p c cp cc hp hc h1 h2⟩,
   resolve_picks_white "de3129" "666666" ⟨222, 49, 41⟩ ⟨102, 102, 102⟩
     rfl rfl contrast_de_66_le (contrast_black_lt_white_of_dark lum_de_lt)⟩

/-- Witness for C7 at the concrete pair from the source's own test. -/
theorem resolve_secondary_branching_witness :
    get_secondary_for_primary "de3129" "666666" = .ok whiteColor :=
  (resolve_secondary_branching.1 "de3129" "666666" ⟨222, 49, 41⟩
    ⟨102, 102, 102⟩ rfl rfl).2.1 contrast_de_66_le
    (contrast_black_lt_white_of_dark lum_de_lt)

theorem secondary_same_candidate (p : String) :
    ∀ col, get_secondary_for_primary p p = .ok col →
      col = whiteColor ∨ col = blackColor := by
  intro col h
  unfold get_secondary_for_primary at h
  cases hp : get_rgb_from_hex p with
  | error e => simp only [hp, Bind.bind, Except.bind] at h; cases h
  | ok c =>
    simp only [hp, Bind.bind, Except.bind] at h
    have h1 : ¬(get_contrast c c > 3.5) := by
      rw [contrast_self]
      norm_num
    rw [if_neg h1] at h
    by_cases h2 : get_contrast c whiteColor > get_contrast c blackColor
    · rw [if_pos h2] at h
      exact .inl (ok_of_ok_eq h).symm
    · rw [if_neg h2] at h
      exact .inr (ok_of_ok_eq h).symm

/-- C10. A synthesized team feeds the very string it used as the primary
color back to the color resolver as the secondary candidate; the
self-contrast of 1 never clears the 3.5 threshold, so the synthesized
secondary color is always pure white or pure black. -/
theorem synthesized_secondary_white_or_black :
    ∀ (competitor : Json) (t : Team), create_team competitor = .ok t →
      t.secondary_color = some whiteColor ∨
      t.secondary_color = some blackColor := by
  intro competitor t h
  unfold create_team at h
  obtain ⟨team, hteam, h⟩ := exceptBind_ok h
  obtain ⟨id, hid, h⟩ := exceptBind_ok h
  obtain ⟨location, hloc, h⟩ := exceptBind_ok h
  obtain ⟨name, hname, h⟩ := exceptBind_ok h
  obtain ⟨abbr, habb, h⟩ := exceptBind_ok h
  obtain ⟨primary_color, hpc, h⟩ := exceptBind_ok h
  rw [hpc] at h
  obtain ⟨secondary_color, hsc, h⟩ := exceptBind_ok h
  obtain ⟨primary, hpr, h⟩ := exceptBind_ok h
  replace h := ok_of_ok_eq h
  subst h
  have heq : unwrapOr (Except.ok primary_color :
      Except Failure String) "000000" = primary_color := rfl
  rw [heq] at hsc
  rcases secondary_same_candidate primary_color secondary_color hsc with
    h | h <;> subst h
  · exact .inl rfl
  · exact .inr rfl

theorem contrast_black_self_le :
    get_contrast blackColor blackColor ≤ 3.5 := by
  rw [contrast_self]
  norm_num

theorem secondary_black_primary :
    get_secondary_for_primary "000000" "000000" = .ok whiteColor :=
  resolve_picks_white "000000" "000000" blackColor blackColor rfl rfl
    contrast_black_self_le
    (contrast_black_lt_white_of_dark (by rw [lum_black]; norm_num))

/-- Witness for C10: an unknown team with primary color "000000" gets a
white secondary. -/
theorem synthesized_secondary_witness :
    wTeam.secondary_color = some whiteColor ∨
    wTeam.secondary_color = some blackColor := by
  have hstep : create_team wCompetitor =
      get_secondary_for_primary "000000" "000000" >>=
        (fun secondary_color => get_rgb_from_hex "000000" >>=
          (fun primary => Except.ok
            (Team.mk 999 "Testville" "Testers" "Testers" "TST"
              (some primary) (some secondary_color)))) := rfl
  have hct : create_team wCompetitor = .ok wTeam := by
    rw [hstep, secondary_black_primary]
    rfl
  exact synthesized_secondary_white_or_black wCompetitor wTeam hct

end LS
